import Mathlib

/-!
Shallow embedding of `ccipca.py` (repository `online_psp`): the CCIPCA
incremental eigenspace estimator.

Modelling conventions:
* numpy 1-D arrays of floats are modelled as `List ℝ` (`Vec`); a d×q numpy
  matrix `Uhat` is modelled column-wise, as the list of its q columns
  (the algorithm only ever accesses `Uhat[:, i]`, i.e. whole columns).
* The parallel arrays `lambda_` (length q) and the columns of `Uhat` are kept
  zipped as `cols : List (ℝ × Vec)`, the i-th entry being
  `(lambda_[i], Uhat[:, i])`.
* Python float arithmetic is modelled by exact real arithmetic.  Note that in
  Lean `a / 0 = 0`, while numpy emits `inf`/`nan`; where this matters
  (degenerate normalization) it is called out explicitly.
* Python `assert` failures are modelled by `Except CCIPCAError`, with
  `shapeMismatch` standing for the `AssertionError` of a shape assert.
-/

/-- A numpy 1-D float array. -/
abbrev Vec := List ℝ

/-- Elementwise scalar multiplication `a * v` (numpy broadcast). -/
noncomputable def vsmul (a : ℝ) (v : Vec) : Vec := v.map (fun b => a * b)

/-- Elementwise addition (numpy `+`). -/
noncomputable def vadd (x y : Vec) : Vec := List.zipWith (fun a b => a + b) x y

/-- Elementwise subtraction (numpy `-`). -/
noncomputable def vsub (x y : Vec) : Vec := List.zipWith (fun a b => a - b) x y

/-- Dot product (numpy `np.dot`, `.dot`). -/
noncomputable def vdot (x y : Vec) : ℝ := (List.zipWith (fun a b => a * b) x y).sum

/-- Euclidean norm `np.sqrt(v.dot(v))`. -/
noncomputable def vnorm (v : Vec) : ℝ := Real.sqrt (vdot v v)

/-- The provisional vector of `CCIPCA_CLASS.fit_next` (non-cython path,
source line 130):
`v = max(1, t - ell) / (t + 1) * lambda_[i] * Uhat[:,i]
     + (1 + ell) / (t + 1) * np.dot(x, Uhat[:,i]) * x`. -/
noncomputable def provisional (t ell lam : ℝ) (u x : Vec) : Vec :=
  vadd (vsmul (max 1 (t - ell) / (t + 1) * lam) u)
       (vsmul ((1 + ell) / (t + 1) * vdot x u) x)

/-- One iteration of the inner `for i in range(q)` loop of
`CCIPCA_CLASS.fit_next` (source lines 130-133): from the current
`(lambda_[i], Uhat[:,i])` and working vector `x`, produce the updated
`(lambda_[i], Uhat[:,i])` and the deflated working vector:
`lambda_[i] = np.sqrt(v.dot(v))`; `Uhat[:,i] = v / lambda_[i]`;
`x = x - np.dot(x, Uhat[:,i]) * Uhat[:,i]` (with the freshly updated column). -/
noncomputable def columnStep (t ell lam : ℝ) (u x : Vec) : ℝ × Vec × Vec :=
  let v := provisional t ell lam u x
  let lam' := Real.sqrt (vdot v v)
  let u' := v.map (fun b => b / lam')
  (lam', u', vsub x (vsmul (vdot x u') u'))

/-- The full inner loop `for i in range(q)` of `CCIPCA_CLASS.fit_next`
(non-cython path): columns are processed front to back, each later column
seeing the working vector deflated by all earlier (already updated) columns.
Returns the updated zipped `(lambda_, Uhat)` columns and the final working
vector. -/
noncomputable def updateLoop (t ell : ℝ) : List (ℝ × Vec) → Vec → List (ℝ × Vec) × Vec
  | [], x => ([], x)
  | (lam, u) :: rest, x =>
    let s := columnStep t ell lam u x
    let r := updateLoop t ell rest s.2.2
    ((s.1, s.2.1) :: r.1, r.2)

/-- Errors raised by the Python code; a failed shape `assert` raises
`AssertionError`, which the spec calls ShapeMismatch. -/
inductive CCIPCAError where
  | shapeMismatch
deriving DecidableEq

/-- Shape check `M.shape == (d, q)` for a matrix given as its list of
columns. -/
def matShape (M : List Vec) (d q : ℕ) : Bool :=
  M.length == q && M.all (fun c => c.length == d)

/-- The mutable state of `CCIPCA_CLASS` (fields set in `__init__`):
`cols` zips `lambda_` with the columns of `Uhat`. -/
structure EstState where
  q : ℕ
  d : ℕ
  ell : ℝ
  cython : Bool
  cols : List (ℝ × Vec)
  t : ℕ
  v : Vec

/-- The guard `assert Uhat0.shape == (d, q)` applied to the optional initial
guess (source lines 86-92 and 160-165): a supplied guess of the wrong shape
raises; an omitted guess falls back to the random draw.  The numpy random
draw (`np.random.normal(loc=0, scale=1/d, size=(d,q))`) is modelled as the
injected parameter `randU` (the draw always has shape (d,q), so no shape
check applies to it in the source). -/
def checkUhat0 (d q : ℕ) (Uhat0 : Option (List Vec)) (randU : List Vec) :
    Except CCIPCAError (List Vec) :=
  match Uhat0 with
  | some U0 =>
      if matShape U0 d q then Except.ok U0
      else Except.error CCIPCAError.shapeMismatch
  | none => Except.ok randU

/-- The guard `assert lambda0.shape == (q,)` applied to the optional initial
guess (source lines 96-100 and 167-171), with the random draw
(`np.random.normal(0,1,(q,))/np.sqrt(q)`) modelled as the injected
parameter `randLam`. -/
def checkLambda0 (q : ℕ) (lambda0 : Option (List ℝ)) (randLam : List ℝ) :
    Except CCIPCAError (List ℝ) :=
  match lambda0 with
  | some l0 =>
      if l0.length == q then Except.ok l0
      else Except.error CCIPCAError.shapeMismatch
  | none => Except.ok randLam

namespace CCIPCA_CLASS

/-- CCIPCA_CLASS.__init__ (source lines 82-106).  The shape asserts on the
optional initial guesses are the only checks performed; `q` itself is never
validated.  A failed assert raises before the object is (observably)
constructed, modelled by `Except.error`. -/
def init (q d : ℕ) (Uhat0 : Option (List Vec)) (lambda0 : Option (List ℝ))
    (ell : ℝ) (cython : Bool) (randU : List Vec) (randLam : List ℝ) :
    Except CCIPCAError EstState :=
  Except.bind (checkUhat0 d q Uhat0 randU) fun Uhat =>
  Except.bind (checkLambda0 q lambda0 randLam) fun lam =>
  Except.ok ⟨q, d, ell, cython, lam.zip Uhat, 1, List.replicate d 0⟩

/-- CCIPCA_CLASS.fit_next (source lines 114-136), reference (cython=False)
path, translated statement by statement.  The returned `Vec` is the content
of the caller's buffer `x_` after the call:

* with `in_place=False` the function first takes a private copy
  (`x = x_.copy()`), so the caller's buffer is untouched;
* with `in_place=True` the local name `x` aliases the caller's buffer, but
  the only statement of the loop that touches `x`
  (`x = x - np.dot(x, Uhat[:,i]) * Uhat[:,i]`) rebinds `x` to a freshly
  allocated numpy array — it does not write through the alias — so the
  caller's buffer content is again exactly `x_`.

Hence the buffer component of the result is `x_` in both modes.  The shape
assert (`assert x.shape == (self.d,)`) fires before any state is mutated;
on failure no state change occurs (`Except.error`).  The cython=True branch
of the source dispatches to the external optimized kernel
`coord_update.coord_update` (not under src/); the claims treated here
concern the reference path, which is what this definition embeds. -/
noncomputable def fit_next (s : EstState) (x_ : Vec) ( in_place : Bool) :
    Except CCIPCAError (EstState × Vec) :=
  -- `x = x_` (alias) when in_place, `x = x_.copy()` otherwise: the same
  -- value either way; only the aliasing differs, and no loop statement
  -- writes through the alias (see the doc comment).
  let x := if in_place then x_ else x_
  if x.length == s.d then
    let r := updateLoop (s.t : ℝ) s.ell s.cols x
    Except.ok ({ s with cols := r.1, t := s.t + 1 }, x_)
  else
    Except.error CCIPCAError.shapeMismatch

/-- Modelled from the spec: `coord_update.coord_update_total`, the optimized
(cython) batch kernel called by `CCIPCA_CLASS.fit`, is code of this
repository that is not under src/.  Per the spec (§4.1, Batch update) it is
mathematically equivalent to invoking the single-sample update once per
column of `X` in order, with the step counter advancing internally by one
per column; it receives the counter by value (`np.double(self.t)`) and
returns the updated `(Uhat, lambda_)`. -/
noncomputable def coord_update_total (cols : List (ℝ × Vec)) (X : List Vec)
    (t : ℕ) (ell : ℝ) : List (ℝ × Vec) :=
  (X.foldl (fun st x => ((updateLoop (st.2 : ℝ) ell st.1 x).1, st.2 + 1))
    (cols, t)).1

/-- CCIPCA_CLASS.fit (source lines 108-111): delegates to the external
kernel and reassigns `self.Uhat, self.lambda_` from its result.  `self.t` is
passed by value (`np.double(self.t)`) and is never reassigned by `fit`, so
the estimator's counter is left unchanged. -/
noncomputable def fit (s : EstState) (X : List Vec) : EstState :=
  { s with cols := coord_update_total s.cols X s.t s.ell }

end CCIPCA_CLASS

/-- The iteration schedule of `_iterate` / `_iterate_and_compute_errors`
(source lines 29-30 and 46-47): `for t in range(1, n_its): j = t % n`.
Entry k of the schedule is the pair (t, j) of the k-th executed iteration. -/
def iterateSchedule (n_its n : ℕ) : List (ℕ × ℕ) :=
  (List.range' 1 (n_its - 1)).map (fun t => (t, t % n))

/-- The provisional vector as written in `_iterate` (source lines 33-34):
`v = (max(t - ell, 1) / (t + 1) * lambda_[i]) * Uhat[:, i]
     + ((1 + ell) / (t + 1) * np.dot(x, Uhat[:, i])) * x`
(same value as `provisional`; only the argument order of `max` differs). -/
noncomputable def provisionalIter (t ell lam : ℝ) (u x : Vec) : Vec :=
  vadd (vsmul (max (t - ell) 1 / (t + 1) * lam) u)
       (vsmul ((1 + ell) / (t + 1) * vdot x u) x)

/-- One inner-loop iteration of `_iterate` (source lines 32-38). -/
noncomputable def columnStepIter (t ell lam : ℝ) (u x : Vec) : ℝ × Vec × Vec :=
  let v := provisionalIter t ell lam u x
  let lam' := Real.sqrt (vdot v v)
  let u' := v.map (fun b => b / lam')
  (lam', u', vsub x (vsmul (vdot x u') u'))

/-- The inner `for i in range(q)` loop of `_iterate`. -/
noncomputable def updateLoopIter (t ell : ℝ) : List (ℝ × Vec) → Vec → List (ℝ × Vec) × Vec
  | [], x => ([], x)
  | (lam, u) :: rest, x =>
    let s := columnStepIter t ell lam u x
    let r := updateLoopIter t ell rest s.2.2
    ((s.1, s.2.1) :: r.1, r.2)

/-- The outer loop of `_iterate` (source lines 28-40) at the level of the
zipped `(lambda_, Uhat)` columns: fold the inner loop over the schedule,
fetching `x = X[:, j]` at each step.  `X` is given as its list of columns. -/
noncomputable def iterateCols (X : List Vec) (ell : ℝ) (n_its n : ℕ)
    (cols : List (ℝ × Vec)) : List (ℝ × Vec) :=
  (iterateSchedule n_its n).foldl
    (fun cs tj => (updateLoopIter (tj.1 : ℝ) ell cs (X.getD tj.2 [])).1) cols

/-- `_iterate` (source lines 28-40): the in-place updates of `lambda_` and
`Uhat` are modelled by `iterateCols`; the function returns only `Uhat`
(source line 40: `return Uhat`).  `q` equals the number of columns and is
implicit in the zipped representation. -/
noncomputable def _iterate (X : List Vec) (lambda_ : List ℝ) (Uhat : List Vec)
    (ell : ℝ) (n_its n : ℕ) : List Vec :=
  (iterateCols X ell n_its n (lambda_.zip Uhat)).map Prod.snd

/-- Modelled from the spec: `util.initialize_errors` (module `util` is not
under src/) — a pre-sized per-step results container of length `n_its`
(spec §4.2: "accumulated into a per-step error array sized to the total
iteration count"). -/
def initialize_errors (n_its : ℕ) : List ℝ := List.replicate n_its 0

/-- Modelled from the spec: `util.compute_errors` (module `util` is not
under src/) — invoke the external evaluator on the current `Uhat` at
iteration index `t` and record the result at slot `t` of the container
(spec §4.2 / §6: "evaluate(current_estimate, iteration_index) → scalar,
recorded into a pre-sized results container"). -/
def compute_errors (ev : List Vec → ℕ → ℝ) (Uhat : List Vec) (t : ℕ)
    (errs : List ℝ) : List ℝ :=
  errs.set t (ev Uhat t)

/-- `_iterate_and_compute_errors` (source lines 43-61): same outer loop as
`_iterate` (this variant writes the provisional-vector formula with
`max(1, t - ell)`, matching `columnStep`), except that the evaluator is
invoked on the current `Uhat` before each update, and the error container is
returned instead of `Uhat`. -/
noncomputable def _iterate_and_compute_errors (X : List Vec) (lambda_ : List ℝ)
    (Uhat : List Vec) (ell : ℝ) (n_its n : ℕ) (ev : List Vec → ℕ → ℝ) :
    List ℝ :=
  ((iterateSchedule n_its n).foldl
    (fun (st : List (ℝ × Vec) × List ℝ) tj =>
      let errs := compute_errors ev (st.1.map Prod.snd) tj.1 st.2
      ((updateLoop (tj.1 : ℝ) ell st.1 (X.getD tj.2 [])).1, errs))
    (lambda_.zip Uhat, initialize_errors n_its)).2

/-- The functional driver `CCIPCA` (source lines 139-178).  `X` is given as
its list of n columns together with the ambient dimension d (numpy reads
both off `X.shape`).  The random draws used when an initial guess is omitted
are injected as `randU`, `randLam` exactly as in `CCIPCA_CLASS.init`.  The
shape asserts are modelled by `Except.error`; then `n_its = n_epoch * n` and
the result is `_iterate_and_compute_errors` when an evaluator is supplied,
else `_iterate` (which returns only `Uhat`). -/
noncomputable def CCIPCA (X : List Vec) (d : ℕ) (q : ℕ) (n_epoch : ℕ)
    (error_options : Option (List Vec → ℕ → ℝ))
    (Uhat0 : Option (List Vec)) (lambda0 : Option (List ℝ)) (ell : ℝ)
    (randU : List Vec) (randLam : List ℝ) :
    Except CCIPCAError ((List Vec) ⊕ (List ℝ)) :=
  Except.bind (checkUhat0 d q Uhat0 randU) fun Uhat =>
  Except.bind (checkLambda0 q lambda0 randLam) fun lambda_ =>
  Except.ok
    (match error_options with
     | some ev =>
         Sum.inr (_iterate_and_compute_errors X lambda_ Uhat ell
           (n_epoch * X.length) X.length ev)
     | none =>
         Sum.inl (_iterate X lambda_ Uhat ell (n_epoch * X.length) X.length))

/-!
Basic lemmas about the vector operations.
-/

@[simp] theorem vsmul_nil (a : ℝ) : vsmul a [] = [] := rfl

@[simp] theorem vsmul_cons (a b : ℝ) (v : Vec) :
    vsmul a (b :: v) = (a * b) :: vsmul a v := rfl

@[simp] theorem length_vsmul (a : ℝ) (v : Vec) :
    (vsmul a v).length = v.length := by
  simp [vsmul]

@[simp] theorem length_vadd (x y : Vec) :
    (vadd x y).length = min x.length y.length := by
  simp [vadd]

@[simp] theorem length_vsub (x y : Vec) :
    (vsub x y).length = min x.length y.length := by
  simp [vsub]

@[simp] theorem vdot_nil_left (y : Vec) : vdot [] y = 0 := by
  simp [vdot]

@[simp] theorem vdot_cons (a b : ℝ) (x y : Vec) :
    vdot (a :: x) (b :: y) = a * b + vdot x y := by
  simp [vdot]

theorem vdot_self_nonneg (v : Vec) : 0 ≤ vdot v v := by
  induction v with
  | nil => simp
  | cons a tl ih => simpa using add_nonneg (mul_self_nonneg a) ih

theorem vdot_map_div (v : Vec) (c : ℝ) :
    vdot (v.map (fun b => b / c)) (v.map (fun b => b / c)) = vdot v v / (c * c) := by
  induction v with
  | nil => simp
  | cons a tl ih =>
      simp only [List.map_cons, vdot_cons, ih, div_mul_div_comm, div_add_div_same]

/-- Normalizing a vector of nonzero norm yields a unit vector. -/
theorem vnorm_map_div_sqrt (v : Vec) (h : vdot v v ≠ 0) :
    vnorm (v.map (fun b => b / Real.sqrt (vdot v v))) = 1 := by
  unfold vnorm
  rw [vdot_map_div, Real.mul_self_sqrt (vdot_self_nonneg v), div_self h,
    Real.sqrt_one]

theorem length_provisional {d : ℕ} (t ell lam : ℝ) {u x : Vec}
    (hu : u.length = d) (hx : x.length = d) :
    (provisional t ell lam u x).length = d := by
  simp [provisional, hu, hx]

/-- The updated column list has the same length as the input (shape (d,q) is
preserved in the q direction). -/
theorem updateLoop_fst_length (t ell : ℝ) :
    ∀ (cols : List (ℝ × Vec)) (x : Vec),
      (updateLoop t ell cols x).1.length = cols.length := by
  intro cols
  induction cols with
  | nil => intro x; rfl
  | cons c rest ih =>
      intro x
      obtain ⟨lam, u⟩ := c
      simp [updateLoop, ih]

/-!
Spec-side apparatus for claim C1: the deflation sequence of working vectors,
written following the claim: `x_0` is the working copy of the sample, and
`x_{i+1}` is `x_i` deflated by the just-updated column i.
-/

/-- The claim's deflation sequence: `deflSeq t ell cols x i` is the working
copy of the sample after it has been deflated by the (updated) columns
`0, …, i-1`.  Column i is updated as `v = max(1, t - ell)/(t + 1) *
lambda[i] * Uhat[:,i] + (1 + ell)/(t + 1) * dot(x_i, Uhat[:,i]) * x_i`
(this is `provisional`), its new value is `v / ‖v‖`, and
`x_{i+1} = x_i - dot(x_i, u_i) * u_i` with `u_i` that new value. -/
noncomputable def deflSeq (t ell : ℝ) (cols : List (ℝ × Vec)) (x : Vec) : ℕ → Vec
  | 0 => x
  | i + 1 =>
    match cols[i]? with
    | some c =>
      let xi := deflSeq t ell cols x i
      let v := provisional t ell c.1 c.2 xi
      let ui := v.map (fun b => b / Real.sqrt (vdot v v))
      vsub xi (vsmul (vdot xi ui) ui)
    | none => deflSeq t ell cols x i

theorem deflSeq_zero (t ell : ℝ) (cols : List (ℝ × Vec)) (x : Vec) :
    deflSeq t ell cols x 0 = x := rfl

/-- Shifting the deflation sequence past the first column. -/
theorem deflSeq_cons (t ell : ℝ) (c : ℝ × Vec) (cs : List (ℝ × Vec)) (x : Vec) :
    ∀ i, deflSeq t ell (c :: cs) x (i + 1) =
      deflSeq t ell cs (columnStep t ell c.1 c.2 x).2.2 i := by
  intro i
  induction i with
  | zero =>
      simp [deflSeq, columnStep]
  | succ i ih =>
      rw [show (i + 1 + 1) = (i + 1) + 1 from rfl]
      unfold deflSeq
      rw [List.getElem?_cons_succ, ih]

/-- Indexed characterization of the inner loop of `fit_next`: the i-th output
column is obtained by applying the per-column update formulas to the i-th
input column and the working vector deflated by all earlier columns. -/
theorem updateLoop_getElem (t ell : ℝ) :
    ∀ (cols : List (ℝ × Vec)) (x : Vec) (i : ℕ),
      (updateLoop t ell cols x).1[i]? =
        (cols[i]?).map (fun c =>
          ((columnStep t ell c.1 c.2 (deflSeq t ell cols x i)).1,
           (columnStep t ell c.1 c.2 (deflSeq t ell cols x i)).2.1)) := by
  intro cols
  induction cols with
  | nil => intro x i; simp [updateLoop]
  | cons c cs ih =>
      intro x i
      obtain ⟨lam, u⟩ := c
      cases i with
      | zero =>
          simp [updateLoop, deflSeq_zero]
      | succ i =>
          simp only [updateLoop, List.getElem?_cons_succ, ih, deflSeq_cons]

/-!
Nondegeneracy and the unit-norm invariant (claim C7).
-/

/-- Nondegeneracy of one pass of the inner loop over the given columns and
working vector: every provisional vector `v` encountered has `v ⬝ v ≠ 0`
(equivalently nonzero Euclidean norm), so no normalization divides by zero. -/
noncomputable def loopNonDegen (t ell : ℝ) : List (ℝ × Vec) → Vec → Prop
  | [], _ => True
  | (lam, u) :: rest, x =>
    vdot (provisional t ell lam u x) (provisional t ell lam u x) ≠ 0 ∧
      loopNonDegen t ell rest (columnStep t ell lam u x).2.2

/-- On a well-shaped, nondegenerate input, the inner loop preserves all
shapes and leaves every updated column with unit Euclidean norm. -/
theorem updateLoop_shapes_norm (t ell : ℝ) (d : ℕ) :
    ∀ (cols : List (ℝ × Vec)) (x : Vec),
      (∀ p ∈ cols, p.2.length = d) → x.length = d →
      loopNonDegen t ell cols x →
      (updateLoop t ell cols x).1.length = cols.length ∧
      (∀ p ∈ (updateLoop t ell cols x).1, p.2.length = d ∧ vnorm p.2 = 1) ∧
      (updateLoop t ell cols x).2.length = d := by
  intro cols
  induction cols with
  | nil =>
      intro x _ hx _
      exact ⟨rfl, by simp [updateLoop], hx⟩
  | cons c cs ih =>
      intro x hcols hx hnd
      obtain ⟨lam, u⟩ := c
      have hu : u.length = d := hcols (lam, u) (List.mem_cons_self _ _)
      have hv : (provisional t ell lam u x).length = d :=
        length_provisional t ell lam hu hx
      obtain ⟨hvv, hnd'⟩ := hnd
      have hunorm : vnorm ((provisional t ell lam u x).map
          (fun b => b / Real.sqrt (vdot (provisional t ell lam u x)
            (provisional t ell lam u x)))) = 1 :=
        vnorm_map_div_sqrt _ hvv
      have hulen : ((provisional t ell lam u x).map
          (fun b => b / Real.sqrt (vdot (provisional t ell lam u x)
            (provisional t ell lam u x)))).length = d := by
        simpa using hv
      have hx' : (columnStep t ell lam u x).2.2.length = d := by
        simp only [columnStep]
        simp [hv, hx]
      have hrest := ih (columnStep t ell lam u x).2.2
        (fun p hp => hcols p (List.mem_cons_of_mem _ hp)) hx' hnd'
      refine ⟨by simpa [updateLoop] using hrest.1, ?_, ?_⟩
      · intro p hp
        simp only [updateLoop, List.mem_cons] at hp
        rcases hp with hp | hp
        · subst hp
          exact ⟨by simpa [columnStep] using hulen,
                 by simpa [columnStep] using hunorm⟩
        · exact hrest.2.1 p hp
      · simpa [updateLoop] using hrest.2.2

/-!
Bridge between the two textual variants of the inner loop: `_iterate` writes
`max(t - ell, 1)` where `fit_next` and `_iterate_and_compute_errors` write
`max(1, t - ell)`; `max` is commutative, so the loops agree.
-/

theorem provisionalIter_eq (t ell lam : ℝ) (u x : Vec) :
    provisionalIter t ell lam u x = provisional t ell lam u x := by
  unfold provisionalIter provisional
  rw [max_comm]

theorem columnStepIter_eq (t ell lam : ℝ) (u x : Vec) :
    columnStepIter t ell lam u x = columnStep t ell lam u x := by
  unfold columnStepIter columnStep
  rw [provisionalIter_eq]

theorem updateLoopIter_eq (t ell : ℝ) :
    ∀ (cols : List (ℝ × Vec)) (x : Vec),
      updateLoopIter t ell cols x = updateLoop t ell cols x := by
  intro cols
  induction cols with
  | nil => intro x; rfl
  | cons c cs ih =>
      intro x
      obtain ⟨lam, u⟩ := c
      simp only [updateLoopIter, updateLoop, columnStepIter_eq, ih]

/-!
Driving several samples through `fit_next` (claim C8).
-/

/-- n successive calls to `fit_next` (default `in_place=False`), stopping at
the first error. -/
noncomputable def fitMany (s : EstState) (xs : List Vec) :
    Except CCIPCAError EstState :=
  xs.foldlM (fun st x => (CCIPCA_CLASS.fit_next st x false).map Prod.fst) s

theorem fitMany_nil (s : EstState) : fitMany s [] = Except.ok s := rfl

theorem fit_next_ok {s : EstState} {x_ : Vec} {ip : Bool}
    (h : x_.length = s.d) :
    CCIPCA_CLASS.fit_next s x_ ip =
      Except.ok
        ({ s with cols := (updateLoop (s.t : ℝ) s.ell s.cols x_).1,
                  t := s.t + 1 }, x_) := by
  unfold CCIPCA_CLASS.fit_next
  simp [h]

/-- The error container built by `_iterate_and_compute_errors` keeps its
initial size (each write is a `set` at an index). -/
theorem iterate_errors_length (X : List Vec) (lambda_ : List ℝ)
    (Uhat : List Vec) (ell : ℝ) (n_its n : ℕ) (ev : List Vec → ℕ → ℝ) :
    (_iterate_and_compute_errors X lambda_ Uhat ell n_its n ev).length =
      n_its := by
  unfold _iterate_and_compute_errors
  have key : ∀ (sched : List (ℕ × ℕ)) (st : List (ℝ × Vec) × List ℝ),
      ((sched.foldl
        (fun (st : List (ℝ × Vec) × List ℝ) tj =>
          let errs := compute_errors ev (st.1.map Prod.snd) tj.1 st.2
          ((updateLoop (tj.1 : ℝ) ell st.1 (X.getD tj.2 [])).1, errs))
        st).2).length = st.2.length := by
    intro sched
    induction sched with
    | nil => intro st; rfl
    | cons tj rest ih =>
        intro st
        rw [List.foldl_cons, ih]
        simp [compute_errors]
  rw [key]
  simp [initialize_errors]

/-!
Concrete evaluations used by counterexamples and witnesses.
-/

/-- A concrete estimator state with d = 2, q = 1, `lambda_ = [0]`,
`Uhat = [[1],[0]]` (one unit column), `t = 1`, `ell = 2`. -/
noncomputable def degenState : EstState := ⟨1, 2, 2, false, [(0, [1, 0])], 1, [0, 0]⟩

/-- Feeding the sample `[0, 1]` (orthogonal to the single column, with
`lambda_[0] = 0`) makes the provisional vector v = 0: the code computes
`lambda_[0] = ‖v‖ = 0` and then divides by it anyway.  In this real-number
model `v / 0 = 0`, so the column becomes the zero vector (numpy would
produce nan); no error of any kind is raised. -/
theorem fit_next_degen_eval :
    CCIPCA_CLASS.fit_next degenState [0, 1] false =
      Except.ok (⟨1, 2, 2, false, [(0, [0, 0])], 2, [0, 0]⟩, [0, 1]) := by
  rw [fit_next_ok (by rfl)]
  norm_num [degenState, updateLoop, columnStep, provisional, vsmul, vadd,
    vsub, vdot, List.zipWith_cons_cons]

theorem sqrt_four : Real.sqrt 4 = 2 := by
  rw [show (4:ℝ) = 2 ^ 2 by norm_num, Real.sqrt_sq (by norm_num : (0:ℝ) ≤ 2)]

/-- Concrete run of the inner loop with d = 1, one column `[1]` with
eigenvalue 1, sample `[1]`, t = 1, ell = 2: the provisional vector is
`[2]`, the new eigenvalue 2, the new column `[1]`, and the fully deflated
working vector `[0]`. -/
theorem updateLoop_c10_eval :
    updateLoop 1 2 [((1:ℝ), [1])] [1] = ([(2, [1])], [0]) := by
  norm_num [updateLoop, columnStep, provisional, vsmul, vadd, vsub, vdot,
    max_def, sqrt_four, List.zipWith_cons_cons]

theorem updateLoopIter_c3a :
    updateLoopIter 1 2 [((2:ℝ), [1])] [0] = ([(1, [1])], [0]) := by
  norm_num [updateLoopIter, columnStepIter, provisionalIter, vsmul, vadd,
    vsub, vdot, max_def, List.zipWith_cons_cons]

theorem updateLoopIter_c3b :
    updateLoopIter 1 2 [((4:ℝ), [1])] [0] = ([(2, [1])], [0]) := by
  norm_num [updateLoopIter, columnStepIter, provisionalIter, vsmul, vadd,
    vsub, vdot, max_def, sqrt_four, List.zipWith_cons_cons]

/-- Concrete run of the `_iterate` outer loop: X = [[0]] (d = n = 1), q = 1,
n_epoch = 2, Uhat0 = [[1]], lambda0 = [2], ell = 2.  The schedule is the
single step (t, j) = (1, 0) and the final columns are [(1, [1])]. -/
theorem iterateCols_c3a :
    iterateCols [[0]] 2 (2 * 1) 1 ([(2:ℝ)].zip [[1]]) = [(1, [1])] := by
  unfold iterateCols iterateSchedule
  norm_num [List.range', List.zip, List.zipWith, List.getD,
    updateLoopIter_c3a]

/-- Same run with lambda0 = [4]: final columns [(2, [1])] — same `Uhat`,
different final `lambda_`. -/
theorem iterateCols_c3b :
    iterateCols [[0]] 2 (2 * 1) 1 ([(4:ℝ)].zip [[1]]) = [(2, [1])] := by
  unfold iterateCols iterateSchedule
  norm_num [List.range', List.zip, List.zipWith, List.getD,
    updateLoopIter_c3b]

theorem CCIPCA_c3a :
    CCIPCA [[0]] 1 1 2 none (some [[1]]) (some [2]) 2 [] [] =
      Except.ok (Sum.inl [[1]]) := by
  have h0 : CCIPCA [[0]] 1 1 2 none (some [[1]]) (some [2]) 2 [] [] =
      Except.ok (Sum.inl (_iterate [[0]] [2] [[1]] 2 (2 * 1) 1)) := rfl
  rw [h0]
  unfold _iterate
  rw [iterateCols_c3a]
  rfl

theorem CCIPCA_c3b :
    CCIPCA [[0]] 1 1 2 none (some [[1]]) (some [4]) 2 [] [] =
      Except.ok (Sum.inl [[1]]) := by
  have h0 : CCIPCA [[0]] 1 1 2 none (some [[1]]) (some [4]) 2 [] [] =
      Except.ok (Sum.inl (_iterate [[0]] [4] [[1]] 2 (2 * 1) 1)) := rfl
  rw [h0]
  unfold _iterate
  rw [iterateCols_c3b]
  rfl

theorem range'_getElem?_eq :
    ∀ (n s i : ℕ), i < n → (List.range' s n)[i]? = some (s + i) := by
  intro n
  induction n with
  | zero => intro s i h; exact absurd h (Nat.not_lt_zero i)
  | succ n ih =>
      intro s i h
      cases i with
      | zero => simp [List.range']
      | succ i =>
          rw [List.range', List.getElem?_cons_succ, ih (s + 1) i (by omega)]
          congr 1
          omega

/-- A concrete estimator state with d = 1, q = 1, `lambda_ = [1]`,
`Uhat = [[1]]`, `t = 1`, `ell = 2` (used by several witnesses). -/
noncomputable def unitState : EstState := ⟨1, 1, 2, false, [(1, [1])], 1, [0]⟩

/-!
Claim theorems.
-/

/-- C1: on the reference (non-cython) path, a call to `fit_next` with a
length-d sample processes the column indices i = 0..q-1 strictly in
increasing order: the i-th updated pair (lambda[i], Uhat[:,i]) is obtained
from the i-th current pair by `v = max(1, t - ell)/(t + 1) * lambda[i] *
Uhat[:,i] + (1 + ell)/(t + 1) * dot(x_i, Uhat[:,i]) * x_i`, where `x_i`
(= `deflSeq … i`) is the working copy of the sample deflated by all earlier
(already updated) columns; then lambda[i] = ‖v‖, Uhat[:,i] = v / lambda[i],
and the working vector is deflated by the new column before column i+1. -/
theorem C1_fit_next_column_formulas (s : EstState) (x_ : Vec) (ip : Bool)
    (i : ℕ) (hlen : x_.length = s.d) :
    ∃ p, CCIPCA_CLASS.fit_next s x_ ip = Except.ok p ∧
      p.1.cols[i]? = (s.cols[i]?).map (fun c =>
        ((fun v => (Real.sqrt (vdot v v),
            v.map (fun b => b / Real.sqrt (vdot v v))))
          (provisional (s.t : ℝ) s.ell c.1 c.2
            (deflSeq (s.t : ℝ) s.ell s.cols x_ i)))) := by
  refine ⟨_, fit_next_ok hlen, ?_⟩
  rw [updateLoop_getElem]
  simp only [columnStep]

/-- C1 witness: the characterization evaluated at a concrete state. -/
theorem C1_witness :
    (([(0:ℝ)] : Vec).length = unitState.d) ∧
    (∃ p, CCIPCA_CLASS.fit_next unitState [0] false = Except.ok p ∧
      p.1.cols[0]? = (unitState.cols[0]?).map (fun c =>
        ((fun v => (Real.sqrt (vdot v v),
            v.map (fun b => b / Real.sqrt (vdot v v))))
          (provisional (unitState.t : ℝ) unitState.ell c.1 c.2
            (deflSeq (unitState.t : ℝ) unitState.ell unitState.cols [0] 0))))) :=
  ⟨rfl, C1_fit_next_column_formulas unitState [0] false 0 rfl⟩

/-- C2 counterexample: with n = 2 columns and n_epoch = 1, the driver's
schedule has 1 update, not n_epoch * n = 2, and it processes column 1, not
the columns [0, 1] in order starting at 0. -/
theorem C2_counterexample :
    (iterateSchedule (1 * 2) 2).length ≠ 1 * 2 ∧
    (iterateSchedule (1 * 2) 2).map Prod.snd ≠ [0, 1] := by decide

/-- C2 (amended): the driver performs exactly n_epoch * n − 1 single-sample
updates (`for t in range(1, n_epoch n)`); the k-th update is at step
t = k + 1 and processes column (k + 1) mod n — the index wraps modulo n
across epoch boundaries, but the very first update is at column 1, so
column 0 is skipped during the first pass (it is first processed when
t = n). -/
theorem C2_amended (n_epoch n k : ℕ) (hk : k < n_epoch * n - 1) :
    (iterateSchedule (n_epoch * n) n).length = n_epoch * n - 1 ∧
    (iterateSchedule (n_epoch * n) n)[k]? = some (k + 1, (k + 1) % n) := by
  constructor
  · simp [iterateSchedule]
  · rw [iterateSchedule, List.getElem?_map, range'_getElem?_eq _ _ _ hk]
    simp [Nat.add_comm]

/-- C2 amended witness: concrete instance n_epoch = 1, n = 2, k = 0. -/
theorem C2_amended_witness :
    (0 < 1 * 2 - 1) ∧
    ((iterateSchedule (1 * 2) 2).length = 1 * 2 - 1 ∧
     (iterateSchedule (1 * 2) 2)[0]? = some (0 + 1, (0 + 1) % 2)) :=
  ⟨by decide, C2_amended 1 2 0 (by decide)⟩

/-- C4: `fit` never advances the counter: `self.t` is passed to the kernel
by value and never reassigned, so after `fit(X)` the counter equals its
prior value — not `t + n` as the claim states.  (The kernel itself, which
is not under src/, is modelled from the spec as n sequential single-sample
updates; the counter behavior is decided by the `fit` body in src/.) -/
theorem C4_fit_leaves_t_unchanged :
    (∀ (s : EstState) (X : List Vec), (CCIPCA_CLASS.fit s X).t = s.t) ∧
    (CCIPCA_CLASS.fit unitState [[0]]).t = 1 ∧ unitState.t + ([[(0:ℝ)]] : List Vec).length = 2 :=
  ⟨fun _ _ => rfl, rfl, rfl⟩

/-- C9: a sample whose length differs from d makes `fit_next` fail with the
shape-assert error (ShapeMismatch), synchronously, returning no updated
state at all — the estimator state is untouched. -/
theorem C9_fit_next_shape_mismatch (s : EstState) (x_ : Vec) (ip : Bool)
    (h : x_.length ≠ s.d) :
    CCIPCA_CLASS.fit_next s x_ ip = Except.error CCIPCAError.shapeMismatch := by
  unfold CCIPCA_CLASS.fit_next
  simp [h]

/-- C9 witness: a length-2 sample against a d = 1 estimator. -/
theorem C9_witness :
    (([(0:ℝ), 0] : Vec).length ≠ unitState.d) ∧
    CCIPCA_CLASS.fit_next unitState [0, 0] true =
      Except.error CCIPCAError.shapeMismatch :=
  ⟨by simp [unitState], C9_fit_next_shape_mismatch unitState [0, 0] true (by simp [unitState])⟩

theorem except_bind_ok {α β : Type} (a : α)
    (f : α → Except CCIPCAError β) : Except.bind (Except.ok a) f = f a := rfl

theorem except_bind_error {α β : Type} (e : CCIPCAError)
    (f : α → Except CCIPCAError β) :
    Except.bind (Except.error e) f = Except.error e := rfl

/-- C6 counterexample: constructing with q = 0 (and no initial guesses) does
NOT fail — the estimator state is created, with an empty column list;
`__init__` never validates q. -/
theorem C6_counterexample :
    CCIPCA_CLASS.init 0 1 none none 2 false [] [] =
      Except.ok ⟨0, 1, 2, false, [], 1, [0]⟩ := rfl

/-- C6 (amended): construction validates only the shapes of the supplied
initial guesses: a mismatched `Uhat0` (or, when `Uhat0` passes, a
mismatched `lambda0`) fails with the shape-assert error (ShapeMismatch)
before any state is created; `q` itself is never validated — with no
initial guesses supplied, construction succeeds for every q (including
q = 0 and q > d, the random draws always having matching shapes). -/
theorem C6_amended (q d : ℕ) (ell : ℝ) (cy : Bool) (rU : List Vec)
    (rL : List ℝ) :
    (∀ U0 lambda0, matShape U0 d q = false →
      CCIPCA_CLASS.init q d (some U0) lambda0 ell cy rU rL =
        Except.error CCIPCAError.shapeMismatch) ∧
    (∀ U0 l0, matShape U0 d q = true → l0.length ≠ q →
      CCIPCA_CLASS.init q d (some U0) (some l0) ell cy rU rL =
        Except.error CCIPCAError.shapeMismatch) ∧
    (∃ s, CCIPCA_CLASS.init q d none none ell cy rU rL = Except.ok s) := by
  refine ⟨?_, ?_, ?_⟩
  · intro U0 lambda0 h
    simp [CCIPCA_CLASS.init, checkUhat0, h, except_bind_error]
  · intro U0 l0 hU hl
    simp [CCIPCA_CLASS.init, checkUhat0, checkLambda0, hU, hl,
      except_bind_ok, except_bind_error]
  · exact ⟨_, rfl⟩

/-- C6 amended witness: concrete instances of each conjunct (d = 1, q = 1;
a (d,q)-mismatched Uhat0, a q-mismatched lambda0, and a guess-free
construction). -/
theorem C6_amended_witness :
    (matShape [[1], [1]] 1 1 = false ∧
      CCIPCA_CLASS.init 1 1 (some [[1], [1]]) none 2 false [] [] =
        Except.error CCIPCAError.shapeMismatch) ∧
    (matShape [[1]] 1 1 = true ∧ ([(1:ℝ), 1] : List ℝ).length ≠ 1 ∧
      CCIPCA_CLASS.init 1 1 (some [[1]]) (some [1, 1]) 2 false [] [] =
        Except.error CCIPCAError.shapeMismatch) ∧
    (∃ s, CCIPCA_CLASS.init 1 1 none none 2 false [] [] = Except.ok s) := by
  refine ⟨⟨by decide, ?_⟩, ⟨by decide, by decide, ?_⟩, ?_⟩
  · exact (C6_amended 1 1 2 false [] []).1 [[1], [1]] none (by decide)
  · exact (C6_amended 1 1 2 false [] []).2.1 [[1]] [1, 1] (by decide) (by decide)
  · exact (C6_amended 1 1 2 false [] []).2.2

/-- C8: the counter is initialized to 1 at construction (`self.t = 1`), and
each successful `fit_next` increments it by exactly one, so n successful
calls advance it from t to t + n. -/
theorem C8_counter (q d : ℕ) (Uhat0 : Option (List Vec))
    (lambda0 : Option (List ℝ)) (ell : ℝ) (cy : Bool) (rU : List Vec)
    (rL : List ℝ) :
    (∀ s, CCIPCA_CLASS.init q d Uhat0 lambda0 ell cy rU rL = Except.ok s →
      s.t = 1) ∧
    (∀ (s : EstState) (xs : List Vec), (∀ x ∈ xs, x.length = s.d) →
      ∃ s', fitMany s xs = Except.ok s' ∧ s'.t = s.t + xs.length) := by
  constructor
  · intro s h
    unfold CCIPCA_CLASS.init at h
    rcases hU : checkUhat0 d q Uhat0 rU with eU | U <;> rw [hU] at h
    · exact absurd h (by simp [except_bind_error])
    · rcases hl : checkLambda0 q lambda0 rL with el | lam <;> rw [hl] at h
      · exact absurd h (by simp [except_bind_ok, except_bind_error])
      · simp only [except_bind_ok] at h
        cases h
        rfl
  · intro s xs
    induction xs generalizing s with
    | nil => intro _; exact ⟨s, rfl, by simp⟩
    | cons x xs ih =>
        intro hlen
        have hx : x.length = s.d := hlen x (List.mem_cons_self _ _)
        have hstep := @fit_next_ok s x false hx
        have hrest := ih { s with cols := (updateLoop (s.t : ℝ) s.ell s.cols x).1,
                                  t := s.t + 1 }
          (fun y hy => hlen y (List.mem_cons_of_mem _ hy))
        obtain ⟨s', hs', ht'⟩ := hrest
        refine ⟨s', ?_, ?_⟩
        · unfold fitMany at hs' ⊢
          rw [List.foldlM_cons, hstep]
          simpa using hs'
        · simp only [ht']
          simp [List.length_cons]
          omega

/-- C8 witness: a concrete construction (t = 1) and a concrete two-sample
run (t goes from 1 to 3). -/
theorem C8_witness :
    (∀ s, CCIPCA_CLASS.init 1 1 (some [[1]]) (some [1]) 2 false [] [] =
        Except.ok s → s.t = 1) ∧
    ((∀ x ∈ ([[0], [0]] : List Vec), x.length = unitState.d) ∧
      ∃ s', fitMany unitState [[0], [0]] = Except.ok s' ∧
        s'.t = unitState.t + ([[0], [0]] : List Vec).length) := by
  refine ⟨(C8_counter 1 1 (some [[1]]) (some [1]) 2 false [] []).1, ?_, ?_⟩
  · intro x hx
    fin_cases hx <;> rfl
  · exact (C8_counter 1 1 (some [[1]]) (some [1]) 2 false [] []).2 unitState
      [[0], [0]] (by intro x hx; fin_cases hx <;> rfl)

/-- C5 counterexample: at a degenerate input (`lambda_[0] = 0`, sample
orthogonal to the column) the computed eigenvalue estimate
`lambda[0] = ‖v‖` is zero before the normalization division, yet `fit_next`
raises nothing: it returns successfully, having stored `lambda[0] = 0` and
performed the division (numpy silently propagates non-finite values into
`Uhat`; in this real-number model the column becomes the zero vector). -/
theorem C5_counterexample :
    (CCIPCA_CLASS.fit_next degenState [0, 1] false).map
        (fun p => p.1.cols.map Prod.fst) = Except.ok [0] ∧
    ∀ e, CCIPCA_CLASS.fit_next degenState [0, 1] false ≠ Except.error e := by
  constructor
  · rw [fit_next_degen_eval]
    rfl
  · intro e
    rw [fit_next_degen_eval]
    simp

/-- C5 (amended): the implementation contains no zero check before the
normalization: for every sample of the declared length, `fit_next` on the
reference path returns successfully — including when `‖v‖ = 0`, in which
case the division is performed anyway (no NumericDegeneracy error exists
in the code; the only raisable error is the shape assert). -/
theorem C5_amended_no_degeneracy_check (s : EstState) (x_ : Vec) (ip : Bool)
    (h : x_.length = s.d) :
    ∃ p, CCIPCA_CLASS.fit_next s x_ ip = Except.ok p :=
  ⟨_, fit_next_ok h⟩

/-- C5 amended witness: the degenerate input itself returns `.ok`. -/
theorem C5_witness :
    (([(0:ℝ), 1] : Vec).length = degenState.d) ∧
    ∃ p, CCIPCA_CLASS.fit_next degenState [0, 1] false = Except.ok p :=
  ⟨rfl, C5_amended_no_degeneracy_check degenState [0, 1] false rfl⟩

/-- C7 counterexample: after the degenerate update the single column of
`Uhat` has Euclidean norm 0, not 1 (numpy: nan): the unit-norm invariant
fails for updates in which some provisional vector has zero norm. -/
theorem C7_counterexample :
    (CCIPCA_CLASS.fit_next degenState [0, 1] false).map
        (fun p => p.1.cols.map (fun c => vnorm c.2)) = Except.ok [0] ∧
    (0 : ℝ) ≠ 1 := by
  constructor
  · rw [fit_next_degen_eval]
    norm_num [Except.map, vnorm, vdot, List.zipWith_cons_cons, Real.sqrt_zero]
  · norm_num

/-- C7 (amended): provided every provisional vector of the pass has nonzero
norm (`loopNonDegen` — the claim fails without this proviso, see the
counterexample), after `fit_next` every column of `Uhat` has exactly unit
Euclidean norm, `Uhat` stays d-by-q, and `lambda` stays length q. -/
theorem C7_amended_unit_norm (s : EstState) (x_ : Vec) (ip : Bool)
    (hq : s.cols.length = s.q)
    (hcols : ∀ p ∈ s.cols, p.2.length = s.d)
    (hx : x_.length = s.d)
    (hnd : loopNonDegen (s.t : ℝ) s.ell s.cols x_) :
    ∃ p, CCIPCA_CLASS.fit_next s x_ ip = Except.ok p ∧
      p.1.cols.length = s.q ∧
      ∀ c ∈ p.1.cols, c.2.length = s.d ∧ vnorm c.2 = 1 := by
  refine ⟨_, fit_next_ok hx, ?_, ?_⟩
  · have h := (updateLoop_shapes_norm (s.t : ℝ) s.ell s.d s.cols x_ hcols hx hnd).1
    simpa [hq] using h
  · intro c hc
    exact (updateLoop_shapes_norm (s.t : ℝ) s.ell s.d s.cols x_ hcols hx hnd).2.1
      c hc

/-- C7 amended witness: a nondegenerate concrete update (d = q = 1). -/
theorem C7_witness :
    (loopNonDegen (unitState.t : ℝ) unitState.ell unitState.cols [0]) ∧
    (∃ p, CCIPCA_CLASS.fit_next unitState [0] false = Except.ok p ∧
      p.1.cols.length = unitState.q ∧
      ∀ c ∈ p.1.cols, c.2.length = unitState.d ∧ vnorm c.2 = 1) := by
  have hnd : loopNonDegen (unitState.t : ℝ) unitState.ell unitState.cols [0] := by
    norm_num [loopNonDegen, provisional, vsmul, vadd, vdot, unitState,
      max_def, List.zipWith_cons_cons]
  exact ⟨hnd, C7_amended_unit_norm unitState [0] false rfl
    (by intro p hp; fin_cases hp; rfl) rfl hnd⟩

/-- C3 counterexample: two runs of the driver from initial eigenvalues [2]
and [4] end with different final `lambda_` ([1] vs [2]) yet return exactly
the same value — so the value returned when no evaluator is supplied cannot
be (and is not) the (`Uhat`, `lambda`) pair: `_iterate` returns `Uhat`
alone (source line 40). -/
theorem C3_counterexample :
    CCIPCA [[0]] 1 1 2 none (some [[1]]) (some [2]) 2 [] [] =
      CCIPCA [[0]] 1 1 2 none (some [[1]]) (some [4]) 2 [] [] ∧
    (iterateCols [[0]] 2 (2 * 1) 1 ([(2:ℝ)].zip [[1]])).map Prod.fst ≠
      (iterateCols [[0]] 2 (2 * 1) 1 ([(4:ℝ)].zip [[1]])).map Prod.fst := by
  constructor
  · rw [CCIPCA_c3a, CCIPCA_c3b]
  · rw [iterateCols_c3a, iterateCols_c3b]
    norm_num [List.map_cons, List.map_nil]

/-- C3 (amended): the driver returns the final `Uhat` matrix alone — not
the (`Uhat`, `lambda`) pair — when no evaluator is supplied (the final
`lambda_` lives only in a local array and is dropped), and returns the
accumulated per-step error array, sized `n_epoch * n`, when an evaluator is
supplied; the caller selects between the two return shapes solely by
whether they pass an evaluator. -/
theorem C3_amended (X : List Vec) (d q n_epoch : ℕ) (U0 : List Vec)
    (l0 : List ℝ) (ell : ℝ) (rU : List Vec) (rL : List ℝ)
    (hU : matShape U0 d q = true) (hl : l0.length = q) :
    CCIPCA X d q n_epoch none (some U0) (some l0) ell rU rL =
      Except.ok (Sum.inl (_iterate X l0 U0 ell (n_epoch * X.length) X.length)) ∧
    ∀ ev, ∃ errs,
      CCIPCA X d q n_epoch (some ev) (some U0) (some l0) ell rU rL =
        Except.ok (Sum.inr errs) ∧ errs.length = n_epoch * X.length := by
  have hl' : (l0.length == q) = true := by simp [hl]
  constructor
  · simp [CCIPCA, checkUhat0, checkLambda0, hU, hl', except_bind_ok]
  · intro ev
    exact ⟨_, by simp [CCIPCA, checkUhat0, checkLambda0, hU, hl',
        except_bind_ok],
      iterate_errors_length X l0 U0 ell (n_epoch * X.length) X.length ev⟩

/-- C3 amended witness: concrete instantiation (d = n = q = 1, one epoch,
a constant evaluator). -/
theorem C3_amended_witness :
    (matShape [[1]] 1 1 = true ∧ ([(1:ℝ)] : List ℝ).length = 1) ∧
    (CCIPCA [[0]] 1 1 1 none (some [[1]]) (some [1]) 2 [] [] =
      Except.ok (Sum.inl (_iterate [[0]] [1] [[1]] 2
        (1 * ([[(0:ℝ)]] : List Vec).length) ([[(0:ℝ)]] : List Vec).length)) ∧
    ∀ ev, ∃ errs,
      CCIPCA [[0]] 1 1 1 (some ev) (some [[1]]) (some [1]) 2 [] [] =
        Except.ok (Sum.inr errs) ∧
        errs.length = 1 * ([[(0:ℝ)]] : List Vec).length) :=
  ⟨⟨by decide, rfl⟩,
   C3_amended [[0]] 1 1 1 [[1]] [1] 2 [] [] (by decide) rfl⟩

/-- C10 counterexample: with `in_place=True` the caller's buffer still holds
its original content `[1]` after the call, even though the deflated working
vector at the end of the update is `[0] ≠ [1]`: the deflation does NOT
destructively mutate the caller's buffer on the reference path (the numpy
statement `x = x - dot(x, u) * u` rebinds, it does not write in place). -/
theorem C10_counterexample :
    (CCIPCA_CLASS.fit_next unitState [1] true).map Prod.snd =
      Except.ok [1] ∧
    (updateLoop (unitState.t : ℝ) unitState.ell unitState.cols [1]).2 = [0] ∧
    ([(0:ℝ)] : Vec) ≠ [1] := by
  refine ⟨?_, ?_, by norm_num⟩
  · rw [fit_next_ok (by rfl)]
    rfl
  · rw [show unitState.cols = [((1:ℝ), [1])] from rfl,
      show unitState.ell = (2:ℝ) from rfl,
      show ((unitState.t : ℕ) : ℝ) = 1 by norm_num [unitState],
      updateLoop_c10_eval]

/-- C10 (amended): with `in_place=False` the estimator works on a private
copy and the caller's sample vector is unchanged after the call; with
`in_place=True` it borrows the caller's buffer without copying, but on the
reference path every deflation statement rebinds the working variable to a
freshly allocated array instead of writing through the alias, so the
caller's vector is unchanged in that case too. -/
theorem C10_amended_buffer_unchanged (s : EstState) (x_ : Vec) (ip : Bool)
    (h : x_.length = s.d) :
    ∃ p, CCIPCA_CLASS.fit_next s x_ ip = Except.ok p ∧ p.2 = x_ :=
  ⟨_, fit_next_ok h, rfl⟩

/-- C10 amended witness. -/
theorem C10_witness :
    (([(1:ℝ)] : Vec).length = unitState.d) ∧
    ∃ p, CCIPCA_CLASS.fit_next unitState [1] true = Except.ok p ∧
      p.2 = [1] :=
  ⟨rfl, C10_amended_buffer_unchanged unitState [1] true rfl⟩
